import Mathlib

/-!
# Verification of the lsst/sphinxutils cross-referencing core

Shallow embedding of the Python sources:

* `src/python/lsst/sphinxutils/ext/utils.py` (role-content parser),
* `src/python/lsst/sphinxutils/ext/lssttasks/_crossrefs.py`
  (id formatters and the deferred cross-reference resolvers),
* `src/python/lsst/sphinxutils/ext/lssttasks/_topics.py`
  (topic-declaration directives),
* `src/python/lsst/sphinxutils/ext/lssttasks/_utils.py`
  (docstring-summary helpers),
* `src/python/lsst/sphinxutils/build/_working_directory.py`.

External collaborators (docutils `make_id`, Sphinx `getdoc` /
`prepare_docstring`, the builder's `get_relative_uri`, Python's module
importer and the document-tree parser) are passed in as function
parameters, mirroring the fact that the repository only consumes their
public contracts.
-/

namespace Sphinxutils

/-! ## Python string primitives -/

/-- The ASCII whitespace characters stripped by Python's `str.strip()`. -/
def isPySpace (c : Char) : Bool :=
  c = ' ' || c = '\t' || c = '\n' || c = '\r' || c = '\x0b' || c = '\x0c'

/-- `str.strip()` on a character list: drop whitespace from both ends. -/
def pyStripL (l : List Char) : List Char :=
  ((l.dropWhile isPySpace).reverse.dropWhile isPySpace).reverse

/-- `str.strip()` on a string. -/
def pyStrip (s : String) : String :=
  ⟨pyStripL s.toList⟩

/-- Python `str.split(c)` for a one-character separator: splits at every
occurrence, keeping empty pieces (`"".split(".") == [""]`). -/
def splitOnChar (c : Char) : List Char → List (List Char)
  | [] => [[]]
  | x :: rest =>
    let r := splitOnChar c rest
    if x = c then [] :: r
    else
      match r with
      | h :: t => (x :: h) :: t
      | [] => [[x]]

/-- `s.split(".")` on strings. -/
def pySplitDot (s : String) : List String :=
  (splitOnChar '.' s.toList).map (fun l => ⟨l⟩)

/-- `s.split(".")[-1]`: the last dotted component (total because `split`
always yields at least one piece). -/
def lastComponent (s : String) : String :=
  (pySplitDot s).getLastD ""

/-- Python `" ".join(lines)`. -/
def joinWithSpace : List String → String
  | [] => ""
  | [s] => s
  | s :: rest => s ++ " " ++ joinWithSpace rest

/-! ## The role display pattern

`ROLE_DISPLAY_PATTERN = re.compile(r"(?P<display>.+)<(?P<reference>.+)>")`
used with `re.match` (utils.py line 16 and line 69).  Python regex
semantics: the match is anchored at the start only, `.` matches any
character except a newline, and `.+` is greedy with backtracking — the
display group is made as long as possible, then the reference group.
Unmatched trailing text after the final `>` is permitted (and dropped).

We model this by explicit descending search over split positions, which
is exactly the backtracking order of the regex engine. -/

/-- `.` of the (non-DOTALL) pattern: no newline allowed inside a group. -/
def noNewline (l : List Char) : Bool :=
  l.all (· ≠ '\n')

/-- Try to end the reference group after exactly `k` characters of `mid`:
succeeds when a `>` follows and the group is nonempty and newline-free. -/
def checkRef (mid : List Char) (k : Nat) : Option (List Char) :=
  let r := mid.take k
  if (mid.drop k).head? = some '>' ∧ r ≠ [] ∧ noNewline r = true then some r else none

/-- Greedy search for the reference group: longest first. -/
def findRef (mid : List Char) : Nat → Option (List Char)
  | 0 => none
  | k + 1 =>
    match checkRef mid (k + 1) with
    | some r => some r
    | none => findRef mid k

/-- Try a display group of exactly `k` characters: the next character must
be `<`, the group nonempty and newline-free, and the remainder must
contain a greedy reference-group match. -/
def checkDisp (s : List Char) (k : Nat) : Option (List Char × List Char) :=
  let d := s.take k
  match s.drop k with
  | '<' :: mid =>
    if d ≠ [] ∧ noNewline d = true then
      (findRef mid mid.length).map (fun r => (d, r))
    else none
  | _ => none

/-- Greedy search for the display group: longest first, with full
backtracking into the reference group. -/
def findDisp (s : List Char) : Nat → Option (List Char × List Char)
  | 0 => none
  | k + 1 =>
    match checkDisp s (k + 1) with
    | some res => some res
    | none => findDisp s k

/-- `ROLE_DISPLAY_PATTERN.match(s)`: `some (display, reference)` groups on
success, `none` when the pattern does not match a prefix of `s`. -/
def matchDisplayPattern (s : List Char) : Option (List Char × List Char) :=
  findDisp s s.length

/-! ## RoleContent (utils.py lines 19–78) -/

/-- Interpreted content of a Sphinx role (`RoleContent` dataclass). -/
structure RoleContent where
  last_component : Bool
  display : Option String
  ref : String
deriving DecidableEq, Repr

/-- The sigil step of `parse` (utils.py lines 61–67): when the text
starts with `~`, set `last_component` and strip all leading `~`
characters. -/
def stripSigil (l : List Char) : Bool × List Char :=
  match l with
  | '~' :: _ => (true, l.dropWhile (· = '~'))
  | _ => (false, l)

/-- `RoleContent.parse`: strip the leading `~` sigil (all leading `~`
characters), then match `ROLE_DISPLAY_PATTERN`; on a match the display
and reference groups are stripped, otherwise the whole remainder is the
stripped reference. -/
def RoleContent.parse (role_rawsource : String) : RoleContent :=
  let st := stripSigil role_rawsource.toList
  match matchDisplayPattern st.2 with
  | some (d, r) => ⟨st.1, some ⟨pyStripL d⟩, ⟨pyStripL r⟩⟩
  | none => ⟨st.1, none, ⟨pyStripL st.2⟩⟩

/-- Reading of the parsing sentence of the spec (claim C3), for
comparison with `RoleContent.parse`: after the sigil step, when the
remainder contains a `<`, split at the *first* `<`; the display is the
trimmed text before it and the target the trimmed text between it and
its closing `>`, which must be the final character of the remainder
(the pattern "must span the full remaining string"); otherwise — in
particular with unmatched trailing text — no display is produced. -/
def parseSpecC3 (role_rawsource : String) : RoleContent :=
  let st := stripSigil role_rawsource.toList
  let before := st.2.takeWhile (· ≠ '<')
  match st.2.dropWhile (· ≠ '<') with
  | '<' :: mid_gt =>
    if before ≠ [] ∧ mid_gt.getLast? = some '>' ∧ mid_gt.dropLast ≠ [] then
      ⟨st.1, some ⟨pyStripL before⟩, ⟨pyStripL mid_gt.dropLast⟩⟩
    else ⟨st.1, none, ⟨pyStripL st.2⟩⟩
  | _ => ⟨st.1, none, ⟨pyStripL st.2⟩⟩

/-- A decomposition of `s` witnessing a match of
`ROLE_DISPLAY_PATTERN`: `s = d ++ "<" ++ r ++ ">" ++ t` with `d` and
`r` nonempty and newline-free; `t` is the unmatched tail permitted by
`re.match` (anchored at the start only). -/
def IsPatternSplit (s d r t : List Char) : Prop :=
  s = d ++ '<' :: (r ++ '>' :: t) ∧ d ≠ [] ∧ r ≠ [] ∧
    noNewline d = true ∧ noNewline r = true

/-! ## Target-identifier formatters (_crossrefs.py lines 27–77)

Each formatter builds a prefixed string and passes it to docutils'
`make_id`, the host's safe-id transform.  `make_id` is an external
collaborator, so it is a parameter of the formatters. -/

/-- `format_task_id`: `make_id(f"lsst-task-{task_class_name}")`. -/
def format_task_id (make_id : String → String) (task_class_name : String) : String :=
  make_id ("lsst-task-" ++ task_class_name)

/-- `format_config_id`: `make_id(f"lsst-config-{config_class_name}")`. -/
def format_config_id (make_id : String → String) (config_class_name : String) : String :=
  make_id ("lsst-config-" ++ config_class_name)

/-- `format_configfield_id`:
`make_id(f"lsst-configfield-{config_class_name}-{field_name}")`. -/
def format_configfield_id (make_id : String → String)
    (config_class_name : String) (field_name : String) : String :=
  make_id ("lsst-configfield-" ++ config_class_name ++ "-" ++ field_name)

/-! ## Python dictionaries

The topic registries are Python `dict`s.  We model a dict as an
association list with first-match lookup and replace-in-place insertion
(last write wins for a duplicated key). -/

/-- `d[k] = v` on a Python dict. -/
def dictSet {α : Type} : List (String × α) → String → α → List (String × α)
  | [], k, v => [(k, v)]
  | (k', v') :: rest, k, v =>
    if k' = k then (k, v) :: rest else (k', v') :: dictSet rest k v

/-- `d[k]`/`k in d` on a Python dict, as an `Option`. -/
def dictGet {α : Type} : List (String × α) → String → Option α
  | [], _ => none
  | (k', v') :: rest, k => if k' = k then some v' else dictGet rest k

/-! ## Doctree nodes and the build environment -/

/-- A docutils `target` node: `nodes.target("", "", ids=[target_id])`
creates it with the given `ids` and no `refid` attribute; accessing a
missing attribute raises `KeyError` in docutils, hence the `Option`. -/
structure TargetNode where
  ids : List String
  refid : Option String
deriving DecidableEq, Repr

/-- The docutils nodes manipulated by this extension. `text` is a
`nodes.Text`, `literalNode` a `nodes.literal`, `referenceNode` a
`nodes.reference` with its `refdocname` and `refuri` attributes, and
`externalNode` stands for opaque host-parsed content (summary bodies). -/
inductive DNode where
  | text (s : String)
  | literalNode (children : List DNode)
  | referenceNode (refdocname : String) (refuri : String) (children : List DNode)
  | targetNode (t : TargetNode)
  | externalNode (tag : String)

/-- A record stored in `env.lsst_task_topics` by
`BaseTopicDirective.run` (_topics.py lines 65–72). -/
structure TopicRecord where
  docname : String
  lineno : Nat
  target : TargetNode
  summary_node : List DNode
  fully_qualified_name : String
  type_ : String

/-- A registry: one of the two well-known environment attributes. -/
abbrev Registry := List (String × TopicRecord)

/-- The Sphinx build environment as seen by this extension: the two
registry attributes; `none` models the attribute not existing
(`hasattr` is false). -/
structure BuildEnv where
  lsst_task_topics : Option Registry
  lsst_configfields : Option Registry

/-! ## Python exceptions raised (or raisable) by the modelled code -/

/-- Exceptions of the embedded fragments: `SphinxError` with its message,
the `NotImplementedError` from an un-overridden abstract method,
`KeyError` from a missing dict/attribute key, `ImportError`/
`AttributeError` from the importer collaborator, and `OSError` from
`os.chdir`. -/
inductive PyError where
  | sphinxError (msg : String)
  | notImplementedError
  | keyError (key : String)
  | importError (msg : String)
  | osError (path : String)
deriving DecidableEq, Repr

/-! ## Docstring utilities (_utils.py lines 32–100) -/

/-- `get_docstring`: fetch the docstring via the external `getdoc`
collaborator, substitute the literal `"Undocumented"` when it is
missing, and split it into lines via the external Sphinx
`prepare_docstring` collaborator.  `Obj` is the type of introspected
Python objects, which this code never looks inside. -/
def get_docstring {Obj : Type} (getdoc : Obj → Option String)
    (prepare_docstring : String → List String) (obj : Obj) : List String :=
  let docstring := (getdoc obj).getD "Undocumented"
  prepare_docstring docstring

/-- The accumulation loop of `extract_docstring_summary`: collect lines
until (and excluding) the first line equal to `""`. -/
def collectSummaryLines : List String → List String
  | [] => []
  | line :: rest => if line = "" then [] else line :: collectSummaryLines rest

/-- `extract_docstring_summary`: join the collected summary lines with
single spaces. -/
def extract_docstring_summary (docstring : List String) : String :=
  joinWithSpace (collectSummaryLines docstring)

/-- `get_type` (_utils.py lines 82–100): split the name on dots, reject
names with fewer than two components with a `SphinxError` naming the
input, otherwise delegate to the importer collaborator
(`getattr(import_module(module_name), name)`, passed in as `resolve`). -/
def get_type {Obj : Type} (resolve : String → String → Except PyError Obj)
    (type_name : String) : Except PyError Obj :=
  let parts := pySplitDot type_name
  if parts.length < 2 then
    .error (.sphinxError
      ("Type must be fully-qualified, of the form ``module.MyClass``. Got: " ++ type_name))
  else
    resolve (String.intercalate "." parts.dropLast) (parts.getLastD "")

/-! ## Topic-declaration directives (_topics.py) -/

/-- The state of a directive invocation: its positional arguments, its
body content lines, and the current document and line. -/
structure DirectiveInput where
  arguments : List String
  content : List String
  docname : String
  lineno : Nat

/-- `BaseTopicDirective._get_docstring_summary` (lines 83–89): import the
class, extract its docstring summary, fall back to
`"No description available."` when the summary is the empty string, and
parse `summary.strip() + "\n"` with the host parser. -/
def getDocstringSummary {Obj : Type}
    (resolve : String → String → Except PyError Obj)
    (getdoc : Obj → Option String)
    (prepare_docstring : String → List String)
    (parse_text_to_nodes : String → List DNode)
    (class_name : String) : Except PyError (List DNode) := do
  let obj ← get_type resolve class_name
  let summary_text := extract_docstring_summary (get_docstring getdoc prepare_docstring obj)
  let summary_text := if summary_text = "" then "No description available." else summary_text
  let summary_text := pyStrip summary_text ++ "\n"
  return parse_text_to_nodes summary_text

/-- `BaseTopicDirective._create_summary_node` (lines 76–81): authored
content wins; otherwise fall back to the docstring summary. -/
def createSummaryNode (parse_content_to_nodes : List String → List DNode)
    (doc_summary : String → Except PyError (List DNode))
    (content : List String) (class_name : String) : Except PyError (List DNode) :=
  if content.length > 0 then .ok (parse_content_to_nodes content)
  else doc_summary class_name

/-- `BaseTopicDirective.run` (lines 40–74), parameterized over the
subclass hooks `get_type` (the topic-kind classifier, which can raise)
and `get_target_id`, and over the host content parser.  Mirrors the
source order: argument check, summary construction, target creation,
lazy registry creation, then record insertion (so a failing classifier
leaves the lazily-created registry attribute in place but inserts
nothing). -/
def baseTopicRun
    (directive_name : String)
    (get_type_hook : String → Except PyError String)
    (get_target_id : String → String)
    (parse_content_to_nodes : List String → List DNode)
    (doc_summary : String → Except PyError (List DNode))
    (inp : DirectiveInput) (env : BuildEnv) :
    Except PyError (BuildEnv × List DNode) := do
  let class_name ←
    match inp.arguments.head? with
    | some c => Except.ok c
    | none =>
      Except.error (.sphinxError
        (directive_name ++ " directive requires a class name as an argument"))
  let summary_node ← createSummaryNode parse_content_to_nodes doc_summary inp.content class_name
  let target_id := get_target_id class_name
  let target_node : TargetNode := ⟨[target_id], none⟩
  let env := { env with lsst_task_topics := some (env.lsst_task_topics.getD []) }
  let ty ← get_type_hook class_name
  let record : TopicRecord :=
    ⟨inp.docname, inp.lineno, target_node, summary_node, class_name, ty⟩
  let topics := dictSet (env.lsst_task_topics.getD []) target_id record
  return ({ env with lsst_task_topics := some topics }, [DNode.targetNode target_node])

/-- The three topic-declaration directives. -/
inductive TopicKind where
  | task
  | configurable
  | config
deriving DecidableEq, Repr

/-- The directive's `get_type` hook. `ConfigurableTopicDirective`
returns `"Configurable"`; `TaskTopicDirective` introspects the class
(external, passed in as `classify`, returning `"PipelineTask"` or
`"Task"`); `ConfigTopicDirective` defines `get_object` instead of
`get_type`, so the inherited `BaseTopicDirective.get_type` runs and
raises `NotImplementedError` (_topics.py lines 32–34 and 138–139). -/
def kindGetTypeHook (classify : String → Except PyError String) :
    TopicKind → String → Except PyError String
  | .task => classify
  | .configurable => fun _ => .ok "Configurable"
  | .config => fun _ => .error .notImplementedError

/-- The directive's `get_target_id` hook: task-like directives share
`format_task_id`; the config directive uses `format_config_id`. -/
def kindTargetId (make_id : String → String) : TopicKind → String → String
  | .task => format_task_id make_id
  | .configurable => format_task_id make_id
  | .config => format_config_id make_id

/-- The directive's default name (`directive_name` class attribute). -/
def kindDirectiveName : TopicKind → String
  | .task => "lsst-task-topic"
  | .configurable => "lsst-configurable-topic"
  | .config => "lsst-config-topic"

/-- `run` of the topic-declaration directive of a given kind. -/
def kindRun {Obj : Type} (make_id : String → String)
    (classify : String → Except PyError String)
    (resolve : String → String → Except PyError Obj)
    (getdoc : Obj → Option String)
    (prepare_docstring : String → List String)
    (parse_text_to_nodes : String → List DNode)
    (parse_content_to_nodes : List String → List DNode)
    (kind : TopicKind) (inp : DirectiveInput) (env : BuildEnv) :
    Except PyError (BuildEnv × List DNode) :=
  baseTopicRun (kindDirectiveName kind) (kindGetTypeHook classify kind)
    (kindTargetId make_id kind) parse_content_to_nodes
    (getDocstringSummary resolve getdoc prepare_docstring parse_text_to_nodes)
    inp env

/-! ## Deferred cross-reference resolvers (_crossrefs.py lines 119–325)

Each `process_pending_*_xref_nodes` function rewrites every pending
node of its kind in a finished doctree.  We model the rewriting of one
pending node: its `rawsource`, the node's source location (passed to
`logger.warning(..., location=node)`), and the enclosing document name. -/

/-- A logged warning: the formatted message and the source location of
the node handed to the logger. -/
structure Warning where
  message : String
  location : String
deriving DecidableEq, Repr

/-- Outcome of resolving one pending node: the replacement node list and
the warnings logged while producing it. -/
structure ResolveResult where
  content : List DNode
  warnings : List Warning

/-- Python truthiness of `role_parts.display`: `None` and `""` are
falsy. -/
def pyTruthy : Option String → Bool
  | none => false
  | some s => decide (s ≠ "")

/-- The shared display-text computation (`if role_parts.display: ...
elif role_parts.last_component: ... else: ...`), identical in all three
resolvers. -/
def displayTextOf (role_parts : RoleContent) : String :=
  if pyTruthy role_parts.display then role_parts.display.getD ""
  else if role_parts.last_component then lastComponent role_parts.ref
  else role_parts.ref

/-- `process_pending_task_xref_nodes`, for one pending node.  The found
branch reads `task_data["target"]["refid"]` (a `KeyError` if the host
has not set `refid`) and builds a reference node; otherwise the literal
label is emitted with one warning. -/
def process_pending_task_xref_node (make_id : String → String)
    (get_relative_uri : String → String → String)
    (env : BuildEnv) (fromdocname : String) (location : String) (rawsource : String) :
    Except PyError ResolveResult :=
  let role_parts := RoleContent.parse rawsource
  let task_id := format_task_id make_id role_parts.ref
  let display_text := displayTextOf role_parts
  let link_label := DNode.literalNode [DNode.text display_text]
  let fallback : ResolveResult :=
    ⟨[link_label], [⟨"lsst-task could not find a reference to " ++ role_parts.ref, location⟩]⟩
  match env.lsst_task_topics with
  | some topics =>
    match dictGet topics task_id with
    | some task_data => do
      let refid ←
        match task_data.target.refid with
        | some r => Except.ok r
        | none => Except.error (.keyError "refid")
      let refuri := get_relative_uri fromdocname task_data.docname ++ "#" ++ refid
      return ⟨[DNode.referenceNode task_data.docname refuri [link_label]], []⟩
    | none => .ok fallback
  | none => .ok fallback

/-- `process_pending_config_xref_nodes`, for one pending node.  It
computes `format_config_id` but looks the identifier up in the
`lsst_task_topics` attribute, exactly as the source does. -/
def process_pending_config_xref_node (make_id : String → String)
    (get_relative_uri : String → String → String)
    (env : BuildEnv) (fromdocname : String) (location : String) (rawsource : String) :
    Except PyError ResolveResult :=
  let role_parts := RoleContent.parse rawsource
  let config_id := format_config_id make_id role_parts.ref
  let display_text := displayTextOf role_parts
  let link_label := DNode.literalNode [DNode.text display_text]
  let fallback : ResolveResult :=
    ⟨[link_label], [⟨"lsst-config could not find a reference to " ++ role_parts.ref, location⟩]⟩
  match env.lsst_task_topics with
  | some topics =>
    match dictGet topics config_id with
    | some config_data => do
      let refid ←
        match config_data.target.refid with
        | some r => Except.ok r
        | none => Except.error (.keyError "refid")
      let refuri := get_relative_uri fromdocname config_data.docname ++ "#" ++ refid
      return ⟨[DNode.referenceNode config_data.docname refuri [link_label]], []⟩
    | none => .ok fallback
  | none => .ok fallback

/-- `process_pending_configfield_xref_nodes`, for one pending node.  The
reference is split at its last dot into class namespace and field name;
the found branch anchors at the configfield id itself; the fallback
label is the bare field name (not `display_text`). -/
def process_pending_configfield_xref_node (make_id : String → String)
    (get_relative_uri : String → String → String)
    (env : BuildEnv) (fromdocname : String) (location : String) (rawsource : String) :
    Except PyError ResolveResult :=
  let role_parts := RoleContent.parse rawsource
  let namespace_components := pySplitDot role_parts.ref
  let field_name := namespace_components.getLastD ""
  let class_namespace := String.intercalate "." namespace_components.dropLast
  let configfield_id := format_configfield_id make_id class_namespace field_name
  let display_text := displayTextOf role_parts
  let fallback : ResolveResult :=
    ⟨[DNode.literalNode [DNode.text field_name]],
     [⟨"lsst-config-field could not find a reference to " ++ role_parts.ref, location⟩]⟩
  match env.lsst_configfields with
  | some fields =>
    match dictGet fields configfield_id with
    | some configfield_data =>
      let refuri := get_relative_uri fromdocname configfield_data.docname ++ "#" ++ configfield_id
      .ok ⟨[DNode.referenceNode configfield_data.docname refuri
              [DNode.literalNode [DNode.text display_text]]], []⟩
    | none => .ok fallback
  | none => .ok fallback

/-- The resolver handling references of a topic-declaration kind: task
and configurable topics are referenced through the task role (shared
namespace), config topics through the config role. -/
def kindResolve (make_id : String → String) (get_relative_uri : String → String → String) :
    TopicKind → BuildEnv → String → String → String → Except PyError ResolveResult
  | .task => process_pending_task_xref_node make_id get_relative_uri
  | .configurable => process_pending_task_xref_node make_id get_relative_uri
  | .config => process_pending_config_xref_node make_id get_relative_uri

/-- Modelled from the spec: the host's document processing runs between
the parse and resolve phases (§4.4's barrier) and records the anchor of
each empty `target` node; docutils' `PropagateTargets` transform (an
external collaborator, not part of this repository) sets the target's
`refid` attribute to its first id, which is what
`task_data["target"]["refid"]` reads at resolve time. -/
def propagate_target (t : TargetNode) : TargetNode :=
  { t with refid := some (t.ids.headD "") }

/-- Modelled from the spec: `propagate_target` applied to a stored
topic record. -/
def propagate_record (r : TopicRecord) : TopicRecord :=
  { r with target := propagate_target r.target }

/-- Modelled from the spec: the host transform applied to every record
in the build environment, producing the environment seen by the
resolve phase. -/
def propagate_env (env : BuildEnv) : BuildEnv where
  lsst_task_topics := env.lsst_task_topics.map (·.map fun p => (p.1, propagate_record p.2))
  lsst_configfields := env.lsst_configfields.map (·.map fun p => (p.1, propagate_record p.2))

/-! ## working_directory (build/_working_directory.py)

Process state is a current working directory, the set of directories
that exist (so `os.chdir` can fail), and an opaque `other` component
standing for every other piece of process state.  The body of the
`with` block is an arbitrary state transformer that may also raise. -/

/-- Process state for the `working_directory` model. -/
structure Sys (σ : Type) where
  cwd : String
  dirs : List String
  other : σ
deriving DecidableEq, Repr

/-- `os.chdir`: succeeds exactly when the directory exists. -/
def chdir {σ : Type} (path : String) (s : Sys σ) : Except PyError (Sys σ) :=
  if path ∈ s.dirs then .ok { s with cwd := path } else .error (.osError path)

/-- `working_directory` (lines 6–14): `prev_cwd = os.getcwd()`, then
`try: os.chdir(path); yield` with `finally: os.chdir(prev_cwd)`.  The
`finally` clause also runs when `chdir(path)` itself raises, and an
exception raised by the restoring `chdir` replaces the in-flight one
(ordinary Python `finally` semantics). -/
def working_directory {σ α : Type} (path : String)
    (body : Sys σ → Except PyError α × Sys σ) (s : Sys σ) :
    Except PyError α × Sys σ :=
  let prev_cwd := s.cwd
  match chdir path s with
  | .error e =>
    match chdir prev_cwd s with
    | .ok s' => (.error e, s')
    | .error e2 => (.error e2, s)
  | .ok s1 =>
    let r := body s1
    match chdir prev_cwd r.2 with
    | .ok s3 => (r.1, s3)
    | .error e2 => (.error e2, r.2)

/-! ## Helper lemmas -/

example :
    RoleContent.parse "Tables <lsst.afw.table.Table>" =
      ⟨false, some "Tables", "lsst.afw.table.Table"⟩ := by decide

example :
    RoleContent.parse "~lsst.afw.table.Table" = ⟨true, none, "lsst.afw.table.Table"⟩ := by
  decide

example :
    RoleContent.parse "lsst.afw.table.Table" = ⟨false, none, "lsst.afw.table.Table"⟩ := by
  decide

/-- `splitOnChar` never returns the empty list (as in Python, where
`split` always yields at least one piece). -/
theorem splitOnChar_ne_nil (c : Char) (l : List Char) : splitOnChar c l ≠ [] := by
  cases l with
  | nil => simp [splitOnChar]
  | cons x rest =>
    simp only [splitOnChar]
    split
    · simp
    · split
      · simp
      · simp

/-- Monadic bind on a successful `Except` computation. -/
theorem except_bind_ok {ε α β : Type} (a : α) (f : α → Except ε β) :
    (Except.ok a >>= f : Except ε β) = f a := rfl

/-- Monadic bind on a failed `Except` computation. -/
theorem except_bind_error {ε α β : Type} (e : ε) (f : α → Except ε β) :
    (Except.error e >>= f : Except ε β) = Except.error e := rfl

/-- Mapping over a failed `Except` computation. -/
theorem except_map_error {ε α β : Type} (e : ε) (f : α → β) :
    (f <$> (Except.error e : Except ε α) : Except ε β) = Except.error e := rfl

/-- Looking up the key just written into a Python dict yields the
written value. -/
theorem dictGet_dictSet_self {α : Type} (l : List (String × α)) (k : String) (v : α) :
    dictGet (dictSet l k v) k = some v := by
  induction l with
  | nil => simp [dictSet, dictGet]
  | cons p rest ih =>
    obtain ⟨k', v'⟩ := p
    by_cases h : k' = k
    · simp [dictSet, dictGet, h]
    · simp [dictSet, dictGet, h, ih]

/-- Mapping a function over the values of a dict commutes with lookup. -/
theorem dictGet_map {α β : Type} (f : α → β) (l : List (String × α)) (k : String) :
    dictGet (l.map fun p => (p.1, f p.2)) k = (dictGet l k).map f := by
  induction l with
  | nil => simp [dictGet]
  | cons p rest ih =>
    obtain ⟨k', v'⟩ := p
    by_cases h : k' = k
    · simp [dictGet, h]
    · simp [dictGet, h, ih]

/-- `checkDisp` can only succeed when the input contains a `<`. -/
theorem checkDisp_eq_none_of_no_lt (s : List Char) (h : '<' ∉ s) (k : Nat) :
    checkDisp s k = none := by
  unfold checkDisp
  cases hd : s.drop k with
  | nil => simp
  | cons c rest =>
    by_cases hc : c = '<'
    · refine absurd (List.drop_subset k s ?_) h
      rw [hd, hc]
      exact List.mem_cons_self _ _
    · simp [hc]

/-- Without a `<` the display pattern cannot match. -/
theorem findDisp_eq_none_of_no_lt (s : List Char) (h : '<' ∉ s) (n : Nat) :
    findDisp s n = none := by
  induction n with
  | zero => rfl
  | succ k ih =>
    unfold findDisp
    rw [checkDisp_eq_none_of_no_lt s h]
    exact ih

/-- Parsing a bare reference (no leading `~`, no `<`, already stripped)
returns it verbatim with no display text. -/
theorem parse_plain (N : String) (hsig : N.toList.head? ≠ some '~')
    (hlt : '<' ∉ N.toList) (htrim : pyStripL N.toList = N.toList) :
    RoleContent.parse N = ⟨false, none, N⟩ := by
  have hstrip : stripSigil N.toList = (false, N.toList) := by
    unfold stripSigil
    split
    · next tail heq => exact absurd (by rw [heq]; rfl) hsig
    · rfl
  simp only [RoleContent.parse, hstrip, matchDisplayPattern,
    findDisp_eq_none_of_no_lt _ hlt, htrim]
  rfl

/-! ## Claim C10 -/

/-- Claim C10: the `working_directory` context manager always restores
the working directory current on entry, both on normal exit and when
the body raises (the body's outcome, success or exception, propagates
unchanged), and the manager itself modifies no other process state
(directories and the opaque `other` component come out exactly as the
body left them).  Hypotheses: the entry directory exists on entry and
still exists when the body finishes (otherwise the restoring `chdir`
itself raises, as in Python). -/
theorem working_directory_restores_cwd {σ α : Type} (path : String)
    (body : Sys σ → Except PyError α × Sys σ) (s : Sys σ)
    (hcwd : s.cwd ∈ s.dirs) :
    (∀ res s2, path ∈ s.dirs → body { s with cwd := path } = (res, s2) → s.cwd ∈ s2.dirs →
      working_directory path body s = (res, { s2 with cwd := s.cwd })) ∧
    (path ∉ s.dirs → working_directory path body s = (.error (.osError path), s)) := by
  constructor
  · intro res s2 hpath hbody hprev
    unfold working_directory
    simp only [chdir, if_pos hpath, hbody, if_pos hprev]
  · intro hpath
    unfold working_directory
    simp only [chdir, if_neg hpath, if_pos hcwd]

/-- Witness for C10 at a concrete state: a body that raises after
changing other state; the exception propagates and the entry cwd is
restored while the body's other-state change survives. -/
theorem working_directory_restores_cwd_witness :
    working_directory (σ := Nat) (α := Nat) "/tmp"
      (fun st => (Except.error (PyError.keyError "boom"), { st with other := 7 }))
      ⟨"/home", ["/home", "/tmp"], 0⟩ =
      (Except.error (PyError.keyError "boom"), ⟨"/home", ["/home", "/tmp"], 7⟩) :=
  (working_directory_restores_cwd "/tmp"
    (fun st => (Except.error (PyError.keyError "boom"), { st with other := 7 }))
    ⟨"/home", ["/home", "/tmp"], 0⟩ (by decide)).1 _ _ (by decide) rfl (by decide)

/-! ## Claim C2 -/

/-- Claim C2: the claim states that every `lsst-config-topic`
declaration with a valid class-name argument completes and registers a
record with type `"Config"`.  The code instead raises
`NotImplementedError`: `ConfigTopicDirective` defines `get_object`
(which nothing calls) instead of overriding `get_type`, so
`BaseTopicDirective.run` line 71 invokes the base `get_type`, which
raises.  This theorem evaluates the directive at a valid input
(`pkg.mod.MyConfig`, with authored summary content and benign external
collaborators) and shows the failure. -/
theorem config_topic_directive_raises :
    @kindRun String (fun s => s) (fun _ => Except.ok "Task")
      (fun _ _ => Except.ok "obj") (fun _ => some "A config class.")
      (fun s => [s, ""]) (fun s => [DNode.text s]) (fun _ => [DNode.externalNode "authored"])
      TopicKind.config ⟨["pkg.mod.MyConfig"], ["Authored summary."], "doc1", 10⟩ ⟨none, none⟩
      = Except.error PyError.notImplementedError := rfl

/-! ## Claim C5 -/

/-- Claim C5: whenever the computed target identifier is absent from the
relevant registry — including when the registry attribute does not
exist at all (`env` attribute `none`) — each of the three resolvers
returns normally (never raises), replaces the placeholder with a plain
inline-literal fallback label, and logs exactly one warning naming the
unresolved reference and carrying the node's source location. -/
theorem unresolved_reference_never_raises (make_id : String → String)
    (get_relative_uri : String → String → String) (env : BuildEnv)
    (fromdoc loc raw : String) :
    (env.lsst_task_topics.bind
        (fun d => dictGet d (format_task_id make_id (RoleContent.parse raw).ref)) = none →
      process_pending_task_xref_node make_id get_relative_uri env fromdoc loc raw =
        .ok ⟨[DNode.literalNode [DNode.text (displayTextOf (RoleContent.parse raw))]],
             [⟨"lsst-task could not find a reference to " ++ (RoleContent.parse raw).ref,
               loc⟩]⟩) ∧
    (env.lsst_task_topics.bind
        (fun d => dictGet d (format_config_id make_id (RoleContent.parse raw).ref)) = none →
      process_pending_config_xref_node make_id get_relative_uri env fromdoc loc raw =
        .ok ⟨[DNode.literalNode [DNode.text (displayTextOf (RoleContent.parse raw))]],
             [⟨"lsst-config could not find a reference to " ++ (RoleContent.parse raw).ref,
               loc⟩]⟩) ∧
    (env.lsst_configfields.bind
        (fun d => dictGet d (format_configfield_id make_id
          (String.intercalate "." (pySplitDot (RoleContent.parse raw).ref).dropLast)
          ((pySplitDot (RoleContent.parse raw).ref).getLastD ""))) = none →
      process_pending_configfield_xref_node make_id get_relative_uri env fromdoc loc raw =
        .ok ⟨[DNode.literalNode
                [DNode.text ((pySplitDot (RoleContent.parse raw).ref).getLastD "")]],
             [⟨"lsst-config-field could not find a reference to " ++
                 (RoleContent.parse raw).ref, loc⟩]⟩) := by
  refine ⟨?_, ?_, ?_⟩
  · intro h
    cases henv : env.lsst_task_topics with
    | none => simp [process_pending_task_xref_node, henv]
    | some topics =>
      rw [henv] at h
      simp only [Option.some_bind] at h
      simp [process_pending_task_xref_node, henv, h]
  · intro h
    cases henv : env.lsst_task_topics with
    | none => simp [process_pending_config_xref_node, henv]
    | some topics =>
      rw [henv] at h
      simp only [Option.some_bind] at h
      simp [process_pending_config_xref_node, henv, h]
  · intro h
    cases henv : env.lsst_configfields with
    | none => simp [process_pending_configfield_xref_node, henv]
    | some fields =>
      rw [henv] at h
      simp only [Option.some_bind, List.getLastD_eq_getLast?] at h
      simp [process_pending_configfield_xref_node, henv, h]

/-- Witness for C5: all three resolvers at a concrete unregistered
reference with a missing registry attribute. -/
theorem unresolved_reference_never_raises_witness :
    process_pending_task_xref_node (fun s => s) (fun _ _ => "uri") ⟨none, none⟩ "d2" "d2:1"
        "pkg.NoSuchTask" =
      Except.ok ⟨[DNode.literalNode [DNode.text "pkg.NoSuchTask"]],
        [⟨"lsst-task could not find a reference to pkg.NoSuchTask", "d2:1"⟩]⟩ ∧
    process_pending_config_xref_node (fun s => s) (fun _ _ => "uri") ⟨none, none⟩ "d2" "d2:1"
        "pkg.NoSuchConfig" =
      Except.ok ⟨[DNode.literalNode [DNode.text "pkg.NoSuchConfig"]],
        [⟨"lsst-config could not find a reference to pkg.NoSuchConfig", "d2:1"⟩]⟩ ∧
    process_pending_configfield_xref_node (fun s => s) (fun _ _ => "uri") ⟨none, none⟩ "d2"
        "d2:1" "pkg.NoSuchConfig.field" =
      Except.ok ⟨[DNode.literalNode [DNode.text "field"]],
        [⟨"lsst-config-field could not find a reference to pkg.NoSuchConfig.field",
          "d2:1"⟩]⟩ := by
  refine ⟨?_, ?_, ?_⟩
  · exact (unresolved_reference_never_raises (fun s => s) (fun _ _ => "uri") ⟨none, none⟩
      "d2" "d2:1" "pkg.NoSuchTask").1 rfl
  · exact (unresolved_reference_never_raises (fun s => s) (fun _ _ => "uri") ⟨none, none⟩
      "d2" "d2:1" "pkg.NoSuchConfig").2.1 rfl
  · exact (unresolved_reference_never_raises (fun s => s) (fun _ _ => "uri") ⟨none, none⟩
      "d2" "d2:1" "pkg.NoSuchConfig.field").2.2 rfl

/-! ## Claim C6 -/

/-- Claim C6: for an unresolved config-field reference, the fallback
label is the bare final dotted component of the parsed target (the
field name) — no condition on the display text or the sigil is needed —
whereas the task resolver's fallback label uses the full display-text
logic. -/
theorem configfield_fallback_bare_field_name (make_id : String → String)
    (get_relative_uri : String → String → String) (env : BuildEnv)
    (fromdoc loc raw : String)
    (h : env.lsst_configfields.bind (fun d => dictGet d (format_configfield_id make_id
          (String.intercalate "." (pySplitDot (RoleContent.parse raw).ref).dropLast)
          ((pySplitDot (RoleContent.parse raw).ref).getLastD ""))) = none) :
    (process_pending_configfield_xref_node make_id get_relative_uri env fromdoc loc raw).map
        (·.content) =
      .ok [DNode.literalNode [DNode.text ((pySplitDot (RoleContent.parse raw).ref).getLastD "")]] ∧
    ∀ env' : BuildEnv,
      env'.lsst_task_topics.bind
          (fun d => dictGet d (format_task_id make_id (RoleContent.parse raw).ref)) = none →
      (process_pending_task_xref_node make_id get_relative_uri env' fromdoc loc raw).map
          (·.content) =
        .ok [DNode.literalNode [DNode.text (displayTextOf (RoleContent.parse raw))]] := by
  constructor
  · rw [(unresolved_reference_never_raises make_id get_relative_uri env fromdoc loc raw).2.2 h]
    rfl
  · intro env' h'
    rw [(unresolved_reference_never_raises make_id get_relative_uri env' fromdoc loc raw).1 h']
    rfl

/-- Witness for C6: a reference with both custom display text and a
field-bearing target; the config-field fallback shows `fld`, the task
fallback shows the custom display `Custom`. -/
theorem configfield_fallback_bare_field_name_witness :
    (process_pending_configfield_xref_node (fun s => s) (fun _ _ => "uri") ⟨none, none⟩ "d2"
        "d2:1" "Custom <pkg.Conf.fld>").map (·.content) =
      Except.ok [DNode.literalNode [DNode.text "fld"]] ∧
    (process_pending_task_xref_node (fun s => s) (fun _ _ => "uri") ⟨none, none⟩ "d2" "d2:1"
        "Custom <pkg.Conf.fld>").map (·.content) =
      Except.ok [DNode.literalNode [DNode.text "Custom"]] := by
  have H := configfield_fallback_bare_field_name (fun s => s) (fun _ _ => "uri") ⟨none, none⟩
    "d2" "d2:1" "Custom <pkg.Conf.fld>" rfl
  exact ⟨H.1, H.2 ⟨none, none⟩ rfl⟩

/-! ## Claim C9 -/

/-- Claim C9 counterexample: the claim says any topic declaration whose
class-name argument has no dot fails at summary construction instead of
registering a topic.  But an `lsst-configurable-topic` declaration with
inline body content never reaches the docstring machinery (authored
content wins in `_create_summary_node`) and its `get_type` hook is the
constant `"Configurable"`, so the dotless name registers successfully:
the directive returns its target node and the record is stored. -/
theorem dotless_topic_with_content_registers :
    (pySplitDot "MyClass").length < 2 ∧
    @kindRun String (fun s => s) (fun _ => Except.ok "Task")
      (fun _ _ => Except.ok "obj") (fun _ => some "doc") (fun s => [s, ""])
      (fun s => [DNode.text s]) (fun _ => [DNode.externalNode "authored"])
      TopicKind.configurable ⟨["MyClass"], ["Authored."], "doc1", 4⟩ ⟨none, none⟩
      = Except.ok
          (⟨some [("lsst-task-MyClass",
              ⟨"doc1", 4, ⟨["lsst-task-MyClass"], none⟩, [DNode.externalNode "authored"],
               "MyClass", "Configurable"⟩)], none⟩,
           [DNode.targetNode ⟨["lsst-task-MyClass"], none⟩]) :=
  ⟨by decide, rfl⟩

/-- Claim C9 (amended): for every type name with fewer than two
dot-separated components, `get_type` raises a `SphinxError` naming the
offending input before any import is attempted; consequently a topic
declaration of any kind with such a class name and *no inline content*
fails at summary construction — the error propagates out of `run` with
the registry left untouched. -/
theorem dotless_get_type_raises {Obj : Type} (resolve : String → String → Except PyError Obj)
    (name : String) (h : (pySplitDot name).length < 2) :
    get_type resolve name = .error (.sphinxError
      ("Type must be fully-qualified, of the form ``module.MyClass``. Got: " ++ name)) ∧
    ∀ (make_id : String → String) (classify : String → Except PyError String)
      (getdoc : Obj → Option String) (prepare : String → List String)
      (ptext : String → List DNode) (pcontent : List String → List DNode)
      (kind : TopicKind) (docname : String) (lineno : Nat) (env : BuildEnv),
      kindRun make_id classify resolve getdoc prepare ptext pcontent kind
        ⟨[name], [], docname, lineno⟩ env
        = .error (.sphinxError
            ("Type must be fully-qualified, of the form ``module.MyClass``. Got: " ++ name)) := by
  have hg : get_type resolve name = .error (.sphinxError
      ("Type must be fully-qualified, of the form ``module.MyClass``. Got: " ++ name)) := by
    unfold get_type
    rw [if_pos h]
  refine ⟨hg, ?_⟩
  intro make_id classify getdoc prepare ptext pcontent kind docname lineno env
  simp [kindRun, baseTopicRun, createSummaryNode, getDocstringSummary, hg,
    except_bind_ok, except_bind_error, except_map_error]

/-- Witness for C9 (amended) at the concrete dotless name `MyClass`. -/
theorem dotless_get_type_raises_witness :
    (pySplitDot "MyClass").length < 2 ∧
    @kindRun String (fun s => s) (fun _ => Except.ok "Task")
      (fun _ _ => Except.ok "obj") (fun _ => some "doc") (fun s => [s, ""])
      (fun s => [DNode.text s]) (fun _ => [DNode.externalNode "c"])
      TopicKind.task ⟨["MyClass"], [], "doc1", 4⟩ ⟨none, none⟩
      = Except.error (PyError.sphinxError
          "Type must be fully-qualified, of the form ``module.MyClass``. Got: MyClass") :=
  ⟨by decide,
    (@dotless_get_type_raises String (fun _ _ => Except.ok "obj") "MyClass"
        (by decide)).2
      (fun s => s) (fun _ => Except.ok "Task") (fun _ => some "doc") (fun s => [s, ""])
      (fun s => [DNode.text s]) (fun _ => [DNode.externalNode "c"]) TopicKind.task "doc1" 4
      ⟨none, none⟩⟩

/-! ## Claim C7 -/

/-- Claim C7 counterexample: the claim says `"No description
available."` is used when the extracted summary is empty *after
trimming*.  The code tests `summary_text == ""` before any trimming
(_topics.py lines 86–87), so a whitespace-only nonempty summary — which
Sphinx's `prepare_docstring` can produce; for the docstring
`"\n  \n\nx"` it returns `["  ", "", "x", ""]` — is kept, and the final
parsed text is `"\n"`, not the sentinel. -/
theorem summary_trimming_counterexample :
    extract_docstring_summary ["  ", "", "x", ""] = "  " ∧
    pyStrip "  " = "" ∧
    @getDocstringSummary String (fun _ _ => Except.ok "obj")
      (fun _ => some "\n  \n\nx") (fun _ => ["  ", "", "x", ""]) (fun s => [DNode.text s])
      "pkg.Conf"
      = Except.ok [DNode.text "\n"] ∧
    ("\n" : String) ≠ "No description available.\n" :=
  ⟨rfl, rfl, rfl, by decide⟩

/-- Claim C7 (amended): the extracted summary is the docstring's lines
strictly before the first blank line, joined with single spaces; a
missing docstring is replaced by the literal sentinel `"Undocumented"`
before line preparation; and `"No description available."` is used
exactly when the extracted summary is the empty string — the emptiness
test applies no trimming, so a whitespace-only nonempty summary is kept
(and only then stripped while appending the final newline). -/
theorem summary_fallback_characterization {Obj : Type}
    (resolve : String → String → Except PyError Obj)
    (getdoc : Obj → Option String) (prepare : String → List String)
    (ptext : String → List DNode) (class_name : String) (obj : Obj)
    (hobj : get_type resolve class_name = Except.ok obj) :
    (∀ ds : List String,
      extract_docstring_summary ds = joinWithSpace (ds.takeWhile (fun l => l ≠ ""))) ∧
    (getdoc obj = none → get_docstring getdoc prepare obj = prepare "Undocumented") ∧
    (extract_docstring_summary (get_docstring getdoc prepare obj) = "" →
      getDocstringSummary resolve getdoc prepare ptext class_name =
        Except.ok (ptext "No description available.\n")) ∧
    (extract_docstring_summary (get_docstring getdoc prepare obj) ≠ "" →
      getDocstringSummary resolve getdoc prepare ptext class_name =
        Except.ok (ptext
          (pyStrip (extract_docstring_summary (get_docstring getdoc prepare obj)) ++ "\n"))) := by
  refine ⟨?_, ?_, ?_, ?_⟩
  · intro ds
    unfold extract_docstring_summary
    congr 1
    induction ds with
    | nil => rfl
    | cons a t ih =>
      by_cases h : a = "" <;> simp [collectSummaryLines, List.takeWhile_cons, h, ih]
  · intro h
    simp [get_docstring, h]
  · intro h
    simp only [getDocstringSummary, hobj, except_bind_ok, h, if_pos]
    rfl
  · intro h
    simp only [getDocstringSummary, hobj, except_bind_ok, if_neg h]
    rfl

/-- Witness for C7 (amended): a missing docstring flows through the
`"Undocumented"` sentinel into the summary. -/
theorem summary_fallback_characterization_witness :
    @get_type String (fun _ _ => Except.ok "obj") "pkg.Conf" = Except.ok "obj" ∧
    @getDocstringSummary String (fun _ _ => Except.ok "obj") (fun _ => none)
      (fun _ => ["Undocumented", ""]) (fun s => [DNode.text s]) "pkg.Conf"
      = Except.ok [DNode.text "Undocumented\n"] := by
  refine ⟨rfl, ?_⟩
  have H := @summary_fallback_characterization String (fun _ _ => Except.ok "obj")
    (fun _ => none) (fun _ => ["Undocumented", ""]) (fun s => [DNode.text s]) "pkg.Conf" "obj"
    rfl
  exact H.2.2.2 (by decide)

/-! ## Claim C8 -/

/-- Claim C8 counterexample: the claim quantifies over role texts whose
label portion before the *first* `<` is nonempty but whitespace-only.
In `"  <a> x <b>"` the text before the first `<` is `"  "`, yet the
greedy regex matches the display group `"  <a> x "`, so `parse` returns
display `some "<a> x"`, not `some ""`, and the resolvers would use that
custom display. -/
theorem whitespace_label_counterexample :
    ("  <a> x <b>").toList.takeWhile (· ≠ '<') = [' ', ' '] ∧
    pyStripL (("  <a> x <b>").toList.takeWhile (· ≠ '<')) = [] ∧
    (RoleContent.parse "  <a> x <b>").display = some "<a> x" := by decide

/-- Claim C8 (amended): for every role text whose *matched* display
group consists only of whitespace, `parse` returns display `some ""`
(present, not `None`), and the display-text computation shared by the
three resolvers — whose Python truthiness test treats `""` like `None`
— produces exactly the label it would produce with no custom display
(last-component or full-target logic). -/
theorem whitespace_display_group_falls_back (raw : String) (d r : List Char)
    (hmatch : matchDisplayPattern (stripSigil raw.toList).2 = some (d, r))
    (hws : pyStripL d = []) :
    (RoleContent.parse raw).display = some "" ∧
    displayTextOf (RoleContent.parse raw) =
      displayTextOf
        ⟨(RoleContent.parse raw).last_component, none, (RoleContent.parse raw).ref⟩ := by
  have hparse : RoleContent.parse raw =
      ⟨(stripSigil raw.toList).1, some ⟨pyStripL d⟩, ⟨pyStripL r⟩⟩ := by
    show (match matchDisplayPattern (stripSigil raw.toList).2 with
          | some (d, r) =>
            RoleContent.mk (stripSigil raw.toList).1 (some ⟨pyStripL d⟩) ⟨pyStripL r⟩
          | none =>
            RoleContent.mk (stripSigil raw.toList).1 none ⟨pyStripL (stripSigil raw.toList).2⟩)
        = RoleContent.mk (stripSigil raw.toList).1 (some ⟨pyStripL d⟩) ⟨pyStripL r⟩
    rw [hmatch]
  rw [hparse, hws]
  exact ⟨rfl, rfl⟩

/-! ## Claim C3: greedy-match infrastructure -/

/-- Inversion of a successful `checkRef`. -/
theorem checkRef_eq_some {mid : List Char} {k : Nat} {r : List Char}
    (h : checkRef mid k = some r) :
    r = mid.take k ∧ (mid.drop k).head? = some '>' ∧ r ≠ [] ∧ noNewline r = true := by
  simp only [checkRef] at h
  split at h
  · next hc =>
    injection h with h
    subst h
    exact ⟨rfl, hc.1, hc.2.1, hc.2.2⟩
  · cases h

/-- `checkRef` succeeds when its conditions hold. -/
theorem checkRef_eq_some_of {mid : List Char} {k : Nat}
    (h1 : (mid.drop k).head? = some '>') (h2 : mid.take k ≠ [])
    (h3 : noNewline (mid.take k) = true) :
    checkRef mid k = some (mid.take k) := by
  simp only [checkRef]
  rw [if_pos ⟨h1, h2, h3⟩]

/-- A valid reference-group decomposition makes `checkRef` succeed at
the group's own length. -/
theorem checkRef_of_split {mid r t : List Char} (hsplit : mid = r ++ '>' :: t)
    (hne : r ≠ []) (hnl : noNewline r = true) :
    checkRef mid r.length = some r := by
  have htake : mid.take r.length = r := by
    rw [hsplit]
    exact List.take_left' rfl
  have hdrop : mid.drop r.length = '>' :: t := by
    rw [hsplit]
    exact List.drop_left' rfl
  have h1 : (mid.drop r.length).head? = some '>' := by rw [hdrop]; rfl
  have h2 : mid.take r.length ≠ [] := by rw [htake]; exact hne
  have h3 : noNewline (mid.take r.length) = true := by rw [htake]; exact hnl
  have hmain := checkRef_eq_some_of h1 h2 h3
  rw [htake] at hmain
  exact hmain

/-- Soundness and maximality of the greedy reference-group search:
`findRef` returns a genuine decomposition and prefers the longest
group among those with length at most the fuel bound. -/
theorem findRef_spec (mid : List Char) (k : Nat) :
    (∀ r, findRef mid k = some r →
      (∃ t, mid = r ++ '>' :: t) ∧ r ≠ [] ∧ noNewline r = true ∧
      ∀ r' t', mid = r' ++ '>' :: t' → r' ≠ [] → noNewline r' = true →
        r'.length ≤ k → r'.length ≤ r.length) ∧
    (findRef mid k = none →
      ∀ r' t', mid = r' ++ '>' :: t' → r' ≠ [] → noNewline r' = true →
        r'.length ≤ k → False) := by
  induction k with
  | zero =>
    constructor
    · intro r h
      cases h
    · intro _ r' t' _ hne' _ hlen
      exact hne' (List.length_eq_zero.mp (Nat.le_zero.mp hlen))
  | succ k ih =>
    constructor
    · intro r h
      simp only [findRef] at h
      cases hc : checkRef mid (k + 1) with
      | some r0 =>
        rw [hc] at h
        injection h with h
        subst h
        obtain ⟨hr0, hhead, hne, hnl⟩ := checkRef_eq_some hc
        subst hr0
        cases hdrop : mid.drop (k + 1) with
        | nil =>
          rw [hdrop] at hhead
          cases hhead
        | cons c t =>
          rw [hdrop] at hhead
          injection hhead with hhead
          subst hhead
          have hklen : k + 1 ≤ mid.length := by
            by_contra hx
            rw [List.drop_eq_nil_of_le (by omega)] at hdrop
            cases hdrop
          have hrlen : (mid.take (k + 1)).length = k + 1 := by
            simp [List.length_take, Nat.min_eq_left hklen]
          refine ⟨⟨t, ?_⟩, hne, hnl, ?_⟩
          · conv_lhs => rw [← List.take_append_drop (k + 1) mid]
            rw [hdrop]
          · intro r' t' _ _ _ hle
            rw [hrlen]
            exact hle
      | none =>
        rw [hc] at h
        obtain ⟨hdec, hne, hnl, hmax⟩ := ih.1 r h
        refine ⟨hdec, hne, hnl, ?_⟩
        intro r' t' hsplit hne' hnl' hle
        rcases Nat.lt_or_ge r'.length (k + 1) with hlt | hge
        · exact hmax r' t' hsplit hne' hnl' (Nat.lt_succ_iff.mp hlt)
        · exfalso
          have heq : r'.length = k + 1 := Nat.le_antisymm hle hge
          have hck := checkRef_of_split hsplit hne' hnl'
          rw [heq, hc] at hck
          cases hck
    · intro h
      simp only [findRef] at h
      cases hc : checkRef mid (k + 1) with
      | some r0 =>
        rw [hc] at h
        cases h
      | none =>
        rw [hc] at h
        intro r' t' hsplit hne' hnl' hle
        rcases Nat.lt_or_ge r'.length (k + 1) with hlt | hge
        · exact ih.2 h r' t' hsplit hne' hnl' (Nat.lt_succ_iff.mp hlt)
        · have heq : r'.length = k + 1 := Nat.le_antisymm hle hge
          have hck := checkRef_of_split hsplit hne' hnl'
          rw [heq, hc] at hck
          cases hck

/-- Inversion of a successful `checkDisp`. -/
theorem checkDisp_eq_some {s : List Char} {k : Nat} {d r : List Char}
    (h : checkDisp s k = some (d, r)) :
    d = s.take k ∧ d ≠ [] ∧ noNewline d = true ∧
      ∃ mid, s.drop k = '<' :: mid ∧ findRef mid mid.length = some r := by
  simp only [checkDisp] at h
  split at h
  · next mid hdrop =>
    split at h
    · next hc =>
      rw [Option.map_eq_some'] at h
      obtain ⟨r0, hfind, hpair⟩ := h
      injection hpair with hd hr
      subst hd
      subst hr
      exact ⟨rfl, hc.1, hc.2, mid, hdrop, hfind⟩
    · cases h
  · cases h

/-- A valid display-group decomposition makes `checkDisp` succeed at the
group's own length, delegating to the greedy reference search. -/
theorem checkDisp_of_split {s d mid : List Char} (hsplit : s = d ++ '<' :: mid)
    (hne : d ≠ []) (hnl : noNewline d = true) :
    checkDisp s d.length = (findRef mid mid.length).map (fun r => (d, r)) := by
  have htake : s.take d.length = d := by
    rw [hsplit]
    exact List.take_left' rfl
  have hdrop : s.drop d.length = '<' :: mid := by
    rw [hsplit]
    exact List.drop_left' rfl
  simp only [checkDisp, htake, hdrop]
  rw [if_pos ⟨hne, hnl⟩]

/-- A valid inner decomposition keeps `findRef` from failing at full
fuel. -/
theorem findRef_ne_none_of_split {mid r t : List Char} (hsplit : mid = r ++ '>' :: t)
    (hne : r ≠ []) (hnl : noNewline r = true) :
    findRef mid mid.length ≠ none := by
  intro hnone
  refine (findRef_spec mid mid.length).2 hnone r t hsplit hne hnl ?_
  rw [hsplit]
  simp [List.length_append]

/-- Soundness and maximality of the greedy display-group search. -/
theorem findDisp_spec (s : List Char) (n : Nat) :
    (∀ d r, findDisp s n = some (d, r) →
      (∃ mid, s = d ++ '<' :: mid ∧ d ≠ [] ∧ noNewline d = true ∧
        findRef mid mid.length = some r) ∧
      ∀ d' mid', s = d' ++ '<' :: mid' → d' ≠ [] → noNewline d' = true →
        (∃ r' t', mid' = r' ++ '>' :: t' ∧ r' ≠ [] ∧ noNewline r' = true) →
        d'.length ≤ n → d'.length ≤ d.length) ∧
    (findDisp s n = none →
      ∀ d' mid', s = d' ++ '<' :: mid' → d' ≠ [] → noNewline d' = true →
        (∃ r' t', mid' = r' ++ '>' :: t' ∧ r' ≠ [] ∧ noNewline r' = true) →
        d'.length ≤ n → False) := by
  induction n with
  | zero =>
    constructor
    · intro d r h
      cases h
    · intro _ d' mid' _ hne' _ _ hlen
      exact hne' (List.length_eq_zero.mp (Nat.le_zero.mp hlen))
  | succ n ih =>
    constructor
    · intro d r h
      simp only [findDisp] at h
      cases hc : checkDisp s (n + 1) with
      | some p =>
        rw [hc] at h
        injection h with h
        subst h
        obtain ⟨hd, hne, hnl, mid, hdrop, hfind⟩ := checkDisp_eq_some hc
        subst hd
        have hklen : n + 1 ≤ s.length := by
          by_contra hx
          rw [List.drop_eq_nil_of_le (by omega)] at hdrop
          cases hdrop
        have hdlen : (s.take (n + 1)).length = n + 1 := by
          simp [List.length_take, Nat.min_eq_left hklen]
        refine ⟨⟨mid, ?_, hne, hnl, hfind⟩, ?_⟩
        · conv_lhs => rw [← List.take_append_drop (n + 1) s]
          rw [hdrop]
        · intro d' mid' _ _ _ _ hle
          rw [hdlen]
          exact hle
      | none =>
        rw [hc] at h
        obtain ⟨hdec, hmax⟩ := ih.1 d r h
        refine ⟨hdec, ?_⟩
        intro d' mid' hsplit hne' hnl' hinner hle
        rcases Nat.lt_or_ge d'.length (n + 1) with hlt | hge
        · exact hmax d' mid' hsplit hne' hnl' hinner (Nat.lt_succ_iff.mp hlt)
        · exfalso
          have heq : d'.length = n + 1 := Nat.le_antisymm hle hge
          have hck := checkDisp_of_split hsplit hne' hnl'
          rw [heq, hc] at hck
          obtain ⟨r', t', hsplit', hne'', hnl''⟩ := hinner
          cases hfr : findRef mid' mid'.length with
          | none => exact findRef_ne_none_of_split hsplit' hne'' hnl'' hfr
          | some r0 =>
            rw [hfr] at hck
            cases hck
    · intro h
      simp only [findDisp] at h
      cases hc : checkDisp s (n + 1) with
      | some p =>
        rw [hc] at h
        cases h
      | none =>
        rw [hc] at h
        intro d' mid' hsplit hne' hnl' hinner hle
        rcases Nat.lt_or_ge d'.length (n + 1) with hlt | hge
        · exact ih.2 h d' mid' hsplit hne' hnl' hinner (Nat.lt_succ_iff.mp hlt)
        · have heq : d'.length = n + 1 := Nat.le_antisymm hle hge
          have hck := checkDisp_of_split hsplit hne' hnl'
          rw [heq, hc] at hck
          obtain ⟨r', t', hsplit', hne'', hnl''⟩ := hinner
          cases hfr : findRef mid' mid'.length with
          | none => exact findRef_ne_none_of_split hsplit' hne'' hnl'' hfr
          | some r0 =>
            rw [hfr] at hck
            cases hck

/-! ## Claim C3 -/

/-- Claim C3 counterexample: the claim says the parser splits at the
*first* `<` and requires the bracket pattern to span the whole
remainder.  The greedy regex instead splits at the last viable `<`
(`"a<b<c>"` yields display `"a<b"`, target `"c"`, against the claim's
`"a"`/`"b<c>"` reading), and `re.match` tolerates unmatched trailing
text (`"Tables <a.b> tail"` still matches, while the claim's
full-span reading would reject it). -/
theorem first_lt_split_counterexample :
    RoleContent.parse "a<b<c>" = ⟨false, some "a<b", "c"⟩ ∧
    parseSpecC3 "a<b<c>" = ⟨false, some "a", "b<c"⟩ ∧
    RoleContent.parse "Tables <a.b> tail" = ⟨false, some "Tables", "a.b"⟩ ∧
    parseSpecC3 "Tables <a.b> tail" = ⟨false, none, "Tables <a.b> tail"⟩ := by decide

/-- Claim C3 (amended): the display pattern matches exactly the strings
admitting a decomposition `d ++ "<" ++ r ++ ">" ++ t` with `d`, `r`
nonempty and newline-free — the unmatched tail `t` is permitted because
the match is anchored at the start only — and among such decompositions
the parser picks the one with the *longest* display group (the last
viable `<`), then the longest reference group (the last viable `>`). -/
theorem role_display_match_characterization (s : List Char) :
    (∀ d r, matchDisplayPattern s = some (d, r) →
      (∃ t, IsPatternSplit s d r t) ∧
      ∀ d' r' t', IsPatternSplit s d' r' t' →
        d'.length ≤ d.length ∧ (d' = d → r'.length ≤ r.length)) ∧
    (matchDisplayPattern s = none → ∀ d' r' t', ¬ IsPatternSplit s d' r' t') := by
  constructor
  · intro d r h
    obtain ⟨⟨mid, hsplit, hne, hnl, hfind⟩, hmax⟩ := (findDisp_spec s s.length).1 d r h
    obtain ⟨⟨t, hsplit'⟩, hne', hnl', hrmax⟩ := (findRef_spec mid mid.length).1 r hfind
    constructor
    · exact ⟨t, by rw [hsplit, hsplit'], hne, hne', hnl, hnl'⟩
    · intro d' r' t' hps
      obtain ⟨hs', hdne', hrne', hdnl', hrnl'⟩ := hps
      have hdle : d'.length ≤ s.length := by
        rw [hs']
        simp [List.length_append]
      have hmax' := hmax d' (r' ++ '>' :: t') hs' hdne' hdnl'
        ⟨r', t', rfl, hrne', hrnl'⟩ hdle
      refine ⟨hmax', ?_⟩
      intro hdd
      subst hdd
      have hmid : mid = r' ++ '>' :: t' := by
        have := hsplit ▸ hs'
        exact (List.cons.injEq _ _ _ _).mp (List.append_cancel_left this) |>.2
      refine hrmax r' t' hmid hrne' hrnl' ?_
      rw [hmid]
      simp [List.length_append]
  · intro h d' r' t' hps
    obtain ⟨hs', hdne', hrne', hdnl', hrnl'⟩ := hps
    have hdle : d'.length ≤ s.length := by
      rw [hs']
      simp [List.length_append]
    exact (findDisp_spec s s.length).2 h d' (r' ++ '>' :: t') hs' hdne' hdnl'
      ⟨r', t', rfl, hrne', hrnl'⟩ hdle

/-- Witness for C3 (amended): the concrete match of `"a<b<c>"` is a
genuine decomposition. -/
theorem role_display_match_characterization_witness :
    ∃ t, IsPatternSplit ("a<b<c>").toList ("a<b").toList ['c'] t :=
  (((role_display_match_characterization ("a<b<c>").toList).1 ("a<b").toList ['c']) rfl).1

/-! ## Claim C1 -/

/-- `Except.bind` on a failed computation, stated on `Except.bind`
itself. -/
theorem exceptBind_error {ε α β : Type} (e : ε) (f : α → Except ε β) :
    Except.bind (Except.error e) f = Except.error e := rfl

/-- `Except.bind` on a successful computation, stated on `Except.bind`
itself. -/
theorem exceptBind_ok {ε α β : Type} (a : α) (f : α → Except ε β) :
    Except.bind (Except.ok a) f = f a := rfl

/-- Claim C1: round trip between registration and resolution.  For
every fully-qualified name `N` (no leading `~`, no `<`, no surrounding
whitespace) and every topic-declaration kind, if the kind's directive
with argument `N` completes and stores its record, then — after the
host's barrier and target propagation — resolving a same-kind reference
whose raw text is exactly `N` takes the registry-found branch and
produces a hyperlink node whose visible label text equals `N`, with no
warnings. -/
theorem registered_reference_resolves {Obj : Type} (make_id : String → String)
    (get_relative_uri : String → String → String)
    (classify : String → Except PyError String)
    (resolve : String → String → Except PyError Obj)
    (getdoc : Obj → Option String) (prepare : String → List String)
    (ptext : String → List DNode) (pcontent : List String → List DNode)
    (kind : TopicKind) (N : String) (content : List String)
    (docname : String) (lineno : Nat) (env : BuildEnv) (fromdoc loc : String)
    (env' : BuildEnv) (outNodes : List DNode)
    (hsig : N.toList.head? ≠ some '~') (hlt : '<' ∉ N.toList)
    (htrim : pyStripL N.toList = N.toList)
    (hrun : kindRun make_id classify resolve getdoc prepare ptext pcontent kind
      ⟨[N], content, docname, lineno⟩ env = Except.ok (env', outNodes)) :
    kindResolve make_id get_relative_uri kind (propagate_env env') fromdoc loc N =
      Except.ok
        ⟨[DNode.referenceNode docname
            (get_relative_uri fromdoc docname ++ "#" ++ kindTargetId make_id kind N)
            [DNode.literalNode [DNode.text N]]],
         []⟩ := by
  have hparse := parse_plain N hsig hlt htrim
  have hk : kindRun make_id classify resolve getdoc prepare ptext pcontent kind
      ⟨[N], content, docname, lineno⟩ env
      = Except.bind
          (createSummaryNode pcontent
            (getDocstringSummary resolve getdoc prepare ptext) content N)
          (fun sn => Except.bind (kindGetTypeHook classify kind N)
            (fun ty => Except.ok
              (BuildEnv.mk
                (some (dictSet (env.lsst_task_topics.getD [])
                  (kindTargetId make_id kind N)
                  ⟨docname, lineno, ⟨[kindTargetId make_id kind N], none⟩, sn, N, ty⟩))
                env.lsst_configfields,
               [DNode.targetNode ⟨[kindTargetId make_id kind N], none⟩]))) := rfl
  rw [hk] at hrun
  cases hsum : createSummaryNode pcontent
      (getDocstringSummary resolve getdoc prepare ptext) content N with
  | error e =>
    rw [hsum, exceptBind_error] at hrun
    cases hrun
  | ok sn =>
    rw [hsum, exceptBind_ok] at hrun
    cases hty : kindGetTypeHook classify kind N with
    | error e =>
      rw [hty, exceptBind_error] at hrun
      cases hrun
    | ok ty =>
      rw [hty, exceptBind_ok] at hrun
      injection hrun with hpair
      rw [Prod.mk.injEq] at hpair
      obtain ⟨henv, -⟩ := hpair
      subst henv
      cases kind with
      | task =>
        simp only [kindResolve, kindTargetId, process_pending_task_xref_node, hparse,
          propagate_env, displayTextOf, pyTruthy, except_bind_ok, Option.map_some']
        rw [dictGet_map propagate_record, dictGet_dictSet_self]
        simp [propagate_record, propagate_target]
        rfl
      | configurable =>
        simp only [kindResolve, kindTargetId, process_pending_task_xref_node, hparse,
          propagate_env, displayTextOf, pyTruthy, except_bind_ok, Option.map_some']
        rw [dictGet_map propagate_record, dictGet_dictSet_self]
        simp [propagate_record, propagate_target]
        rfl
      | config =>
        simp only [kindResolve, kindTargetId, process_pending_config_xref_node, hparse,
          propagate_env, displayTextOf, pyTruthy, except_bind_ok, Option.map_some']
        rw [dictGet_map propagate_record, dictGet_dictSet_self]
        simp [propagate_record, propagate_target]
        rfl

/-- Witness for C1: a concrete `lsst-task-topic` registration of
`pkg.mod.FooTask` in `d1`, resolved from `d2`, yields the hyperlink
with visible label `pkg.mod.FooTask`. -/
theorem registered_reference_resolves_witness :
    kindResolve (fun s => s) (fun a b => a ++ "->" ++ b) TopicKind.task
      (propagate_env
        ⟨some [("lsst-task-pkg.mod.FooTask",
          ⟨"d1", 1, ⟨["lsst-task-pkg.mod.FooTask"], none⟩, [DNode.externalNode "c"],
           "pkg.mod.FooTask", "Task"⟩)], none⟩)
      "d2" "d2:3" "pkg.mod.FooTask" =
      Except.ok
        ⟨[DNode.referenceNode "d1" ("d2->d1" ++ "#" ++ "lsst-task-pkg.mod.FooTask")
            [DNode.literalNode [DNode.text "pkg.mod.FooTask"]]],
         []⟩ :=
  @registered_reference_resolves String (fun s => s) (fun a b => a ++ "->" ++ b)
    (fun _ => Except.ok "Task") (fun _ _ => Except.ok "o") (fun _ => some "d")
    (fun s => [s, ""]) (fun s => [DNode.text s]) (fun _ => [DNode.externalNode "c"])
    TopicKind.task "pkg.mod.FooTask" ["S."] "d1" 1 ⟨none, none⟩ "d2" "d2:3"
    ⟨some [("lsst-task-pkg.mod.FooTask",
      ⟨"d1", 1, ⟨["lsst-task-pkg.mod.FooTask"], none⟩, [DNode.externalNode "c"],
       "pkg.mod.FooTask", "Task"⟩)], none⟩
    [DNode.targetNode ⟨["lsst-task-pkg.mod.FooTask"], none⟩]
    (by decide) (by decide) (by decide) rfl

/-! ## Claim C4 -/

/-- Splitting a list around an element that occurs in neither suffix is
unambiguous. -/
theorem append_cons_eq_of_not_mem {α : Type} {x : α} :
    ∀ (a₁ a₂ b₁ b₂ : List α), a₁ ++ x :: b₁ = a₂ ++ x :: b₂ → x ∉ b₁ → x ∉ b₂ →
      a₁ = a₂ ∧ b₁ = b₂ := by
  intro a₁
  induction a₁ with
  | nil =>
    intro a₂ b₁ b₂ h hb₁ hb₂
    cases a₂ with
    | nil =>
      simp only [List.nil_append, List.cons.injEq] at h
      exact ⟨rfl, h.2⟩
    | cons y a₂' =>
      simp only [List.nil_append, List.cons_append, List.cons.injEq] at h
      obtain ⟨hxy, hb⟩ := h
      refine absurd ?_ hb₁
      rw [hb]
      exact List.mem_append_right _ (List.mem_cons_self x b₂)
  | cons y a₁' ih =>
    intro a₂ b₁ b₂ h hb₁ hb₂
    cases a₂ with
    | nil =>
      simp only [List.nil_append, List.cons_append, List.cons.injEq] at h
      obtain ⟨hxy, hb⟩ := h
      refine absurd ?_ hb₂
      rw [← hb]
      exact List.mem_append_right _ (List.mem_cons_self x b₁)
    | cons z a₂' =>
      simp only [List.cons_append, List.cons.injEq] at h
      obtain ⟨hyz, htail⟩ := h
      obtain ⟨ha, hb⟩ := ih a₂' b₁ b₂ htail hb₁ hb₂
      exact ⟨by rw [hyz, ha], hb⟩

/-- Claim C4: identifier formatting is injective per kind and
deterministic, under the spec's stated assumption that the external
slugifier does not re-collide distinct strings (`make_id` injective).
For the config-field formatter the inputs are the class name and the
field name; the field name is hyphen-free, as every dotted component of
a fully-qualified Python name is. -/
theorem format_id_injective (make_id : String → String)
    (hmk : Function.Injective make_id) :
    (∀ A B, format_task_id make_id A = format_task_id make_id B → A = B) ∧
    (∀ A B, format_config_id make_id A = format_config_id make_id B → A = B) ∧
    (∀ c₁ f₁ c₂ f₂, '-' ∉ f₁.data → '-' ∉ f₂.data →
      format_configfield_id make_id c₁ f₁ = format_configfield_id make_id c₂ f₂ →
      c₁ = c₂ ∧ f₁ = f₂) := by
  have hcancel : ∀ p A B : String, p ++ A = p ++ B → A = B := by
    intro p A B h
    apply String.ext
    have hd : (p ++ A).data = (p ++ B).data := by rw [h]
    rw [String.data_append, String.data_append] at hd
    exact List.append_cancel_left hd
  refine ⟨?_, ?_, ?_⟩
  · intro A B h
    exact hcancel _ _ _ (hmk h)
  · intro A B h
    exact hcancel _ _ _ (hmk h)
  · intro c₁ f₁ c₂ f₂ hf₁ hf₂ h
    have h' := hmk h
    have hd : ("lsst-configfield-" ++ c₁ ++ "-" ++ f₁).data
        = ("lsst-configfield-" ++ c₂ ++ "-" ++ f₂).data := by rw [h']
    have hdash : ("-" : String).data = ['-'] := rfl
    simp only [String.data_append, hdash, List.append_assoc, List.singleton_append] at hd
    have hd' := List.append_cancel_left hd
    obtain ⟨hc, hf⟩ := append_cons_eq_of_not_mem c₁.data c₂.data f₁.data f₂.data hd' hf₁ hf₂
    exact ⟨String.ext hc, String.ext hf⟩

/-- Witness for C4: with the identity slugifier (injective), two
distinct task names receive distinct identifiers. -/
theorem format_id_injective_witness :
    format_task_id (fun s => s) "pkg.TaskA" ≠ format_task_id (fun s => s) "pkg.TaskB" :=
  fun h =>
    absurd ((format_id_injective (fun s => s) (fun _ _ hab => hab)).1 _ _ h) (by decide)

/-- Witness for C8 (amended) at the concrete text `" <pkg.Cls>"`. -/
theorem whitespace_display_group_falls_back_witness :
    (RoleContent.parse " <pkg.Cls>").display = some "" ∧
    displayTextOf (RoleContent.parse " <pkg.Cls>") = "pkg.Cls" := by
  have H := whitespace_display_group_falls_back " <pkg.Cls>" [' '] "pkg.Cls".toList rfl rfl
  refine ⟨H.1, ?_⟩
  rw [H.2]
  rfl

end Sphinxutils
